import Mathlib

/-!
Verification of the computer-use tool layer: the persistent interactive shell
session (`bash.py`: `_CommandSession`, `CommandTool`) and the GUI tool's input
validation and coordinate scaling (`computer.py`: `ComputerTool`).

Strings are modelled as lists of characters.  The shell subprocess is external:
its behaviour during one `run` call is an explicit observation (either the
timeout elapsed, or the sentinel was observed together with the bytes that had
arrived on the stdout/stderr pipes).  Writes to stdin and termination signals
are recorded in the process state so that "no I/O was performed" is provable as
state equality.  The Unix code path is modelled (line ending `"\n"`, `bash`,
`terminate`); the Windows branches differ only in constants and signals.
-/

namespace ComputerUseTools

/-- Strings are modelled as lists of characters. -/
abbrev Str := List Char

/-- `hasPre p s`: `p` is a prefix of `s` (the elementary matcher under
Python's `in` / `str.index`). -/
def hasPre : Str → Str → Bool
  | [], _ => true
  | _ :: _, [] => false
  | p :: ps, c :: cs => p == c && hasPre ps cs

/-- Python's `pat in s`: `pat` occurs as a contiguous substring of `s`. -/
def containsStr (pat : Str) : Str → Bool
  | [] => hasPre pat []
  | s@(_ :: rest) => hasPre pat s || containsStr pat rest

/-- Python's `s[: s.index(pat)]` when `pat` occurs in `s` (the whole of `s`
when it does not): the prefix of `s` before the first occurrence of `pat`. -/
def truncAt (pat : Str) : Str → Str
  | [] => []
  | c :: rest => if hasPre pat (c :: rest) then [] else c :: truncAt pat rest

/-- Python's `s.replace(CRLF, LF)`: left-to-right, non-overlapping. -/
def replaceCRLF : Str → Str
  | [] => []
  | [c] => [c]
  | c1 :: c2 :: rest =>
      if c1 = '\r' ∧ c2 = '\n' then '\n' :: replaceCRLF rest
      else c1 :: replaceCRLF (c2 :: rest)

/-- `if output.endswith(LF): output = output[:-1]` — strip one trailing
newline if present. -/
def stripNL (s : Str) : Str := if s.getLast? = some '\n' then s.dropLast else s

/-- The normalization applied to both captured streams in `run` (bash.py
lines 116-124): line-ending conversion then single trailing-newline strip. -/
def normalizeStream (s : Str) : Str := stripNL (replaceCRLF s)

theorem hasPre_nil (p : Str) : hasPre p [] = true ↔ p = [] := by
  cases p <;> simp [hasPre]

theorem hasPre_append_self (p t : Str) : hasPre p (p ++ t) = true := by
  induction p with
  | nil => simp [hasPre]
  | cons c cs ih => simp [hasPre, ih]

theorem hasPre_iff_take (p : Str) : ∀ s, hasPre p s = true ↔ s.take p.length = p := by
  induction p with
  | nil => intro s; simp [hasPre]
  | cons c cs ih =>
      intro s
      cases s with
      | nil => simp [hasPre]
      | cons d ds => simp [hasPre, List.take, ih ds, eq_comm (a := d) (b := c), and_comm]

theorem containsStr_cons (pat : Str) (c : Char) (rest : Str) :
    containsStr pat (c :: rest) = (hasPre pat (c :: rest) || containsStr pat rest) := rfl

theorem containsStr_of_suffix (pat : Str) (c : Char) (rest : Str)
    (h : containsStr pat rest = true) : containsStr pat (c :: rest) = true := by
  simp [containsStr_cons, h]

theorem containsStr_of_hasPre (pat s : Str) (h : hasPre pat s = true) :
    containsStr pat s = true := by
  cases s with
  | nil => simpa [containsStr] using h
  | cons c rest => simp [containsStr_cons, h]

theorem hasPre_append_right (pat : Str) : ∀ t u, hasPre pat t = true → hasPre pat (t ++ u) = true := by
  induction pat with
  | nil => intro t u _; simp [hasPre]
  | cons p ps ih =>
      intro t u h
      cases t with
      | nil => simp [hasPre] at h
      | cons c cs =>
          simp only [hasPre, Bool.and_eq_true, beq_iff_eq] at h
          simp [hasPre, h.1, ih cs u h.2]

theorem containsStr_append_right (pat : Str) :
    ∀ t u, containsStr pat t = true → containsStr pat (t ++ u) = true := by
  intro t
  induction t with
  | nil =>
      intro u h
      simp only [containsStr] at h
      have hp : pat = [] := (hasPre_nil pat).1 h
      subst hp
      cases u with
      | nil => simp [containsStr, hasPre]
      | cons c cs => simp [containsStr_cons, hasPre]
  | cons c cs ih =>
      intro u h
      rw [containsStr_cons, Bool.or_eq_true] at h
      rcases h with h | h
      · exact containsStr_of_hasPre _ _ (hasPre_append_right pat (c :: cs) u h)
      · exact containsStr_of_suffix _ _ _ (ih u h)

/-- The sentinel token `_CommandSession._sentinel`. -/
def sentinelChars : Str := "<<exit>>".data

theorem sentinelChars_length : sentinelChars.length = 8 := by decide

theorem sentinelChars_ne_nil : sentinelChars ≠ [] := by decide

/-- The sentinel has no nonempty proper border: no nonempty proper prefix of
it is also a suffix, so an occurrence of the sentinel cannot straddle the
boundary between a sentinel-free prefix and an appended sentinel. -/
theorem sentinel_border_free :
    ∀ k, k < 8 → 0 < k → sentinelChars.drop k ≠ sentinelChars.take (8 - k) := by decide

theorem hasPre_sentinel_append (q z : Str)
    (h : hasPre sentinelChars (q ++ (sentinelChars ++ z)) = true) :
    q = [] ∨ hasPre sentinelChars q = true := by
  rw [hasPre_iff_take] at h
  rcases Nat.lt_or_ge q.length 8 with hq | hq
  · rcases Nat.eq_zero_or_pos q.length with h0 | h0
    · exact Or.inl (List.eq_nil_of_length_eq_zero h0)
    · exfalso
      rw [sentinelChars_length, List.take_append_eq_append_take,
        List.take_of_length_le (Nat.le_of_lt hq),
        List.take_append_of_le_length (by rw [sentinelChars_length]; omega)] at h
      have hdrop : sentinelChars.drop q.length = sentinelChars.take (8 - q.length) := by
        conv_lhs => rw [← h]
        rw [List.drop_left]
      exact sentinel_border_free q.length hq h0 hdrop
  · right
    rw [hasPre_iff_take, sentinelChars_length]
    rw [sentinelChars_length, List.take_append_of_le_length hq] at h
    exact h

/-- When the command's stdout `S` does not contain the sentinel, truncating
the observed buffer `S ++ sentinel ++ leakage` at the sentinel's first
occurrence recovers exactly `S`. -/
theorem truncAt_sentinel_append (S : Str) (hS : containsStr sentinelChars S = false) :
    ∀ z, truncAt sentinelChars (S ++ (sentinelChars ++ z)) = S := by
  induction S with
  | nil =>
      intro z
      have hpre := hasPre_append_self sentinelChars z
      rcases hz : sentinelChars ++ z with _ | ⟨c, rest⟩
      · exact absurd (List.append_eq_nil.1 hz).1 sentinelChars_ne_nil
      · rw [hz] at hpre
        simp [truncAt, hpre]
  | cons c S' ih =>
      intro z
      rw [containsStr_cons, Bool.or_eq_false_iff] at hS
      have hnp : hasPre sentinelChars ((c :: S') ++ (sentinelChars ++ z)) = false := by
        rcases hhp : hasPre sentinelChars ((c :: S') ++ (sentinelChars ++ z)) with _ | _
        · rfl
        · rcases hasPre_sentinel_append (c :: S') z hhp with h | h
          · exact absurd h (List.cons_ne_nil c S')
          · rw [h] at hS
            exact absurd hS.1 (by simp)
      rw [List.cons_append] at hnp ⊢
      rw [truncAt, hnp]
      simp [ih hS.2 z]

theorem hasPre_replaceCRLF (pat : Str) (hpat : ∀ c ∈ pat, c ≠ '\r' ∧ c ≠ '\n') :
    ∀ s, hasPre pat (replaceCRLF s) = true → hasPre pat s = true := by
  intro s
  induction s using replaceCRLF.induct with
  | case1 => simp [replaceCRLF]
  | case2 c => simp [replaceCRLF]
  | case3 c1 c2 rest h ih =>
      intro hp
      rw [replaceCRLF, if_pos h] at hp
      cases pat with
      | nil => simp [hasPre]
      | cons p ps =>
          exfalso
          simp only [hasPre, Bool.and_eq_true, beq_iff_eq] at hp
          exact (hpat p (by simp)).2 hp.1
  | case4 c1 c2 rest h ih =>
      intro hp
      rw [replaceCRLF, if_neg h] at hp
      cases pat with
      | nil => simp [hasPre]
      | cons p ps =>
          simp only [hasPre, Bool.and_eq_true, beq_iff_eq] at hp ⊢
          refine ⟨hp.1, ?_⟩
          exact hasPre_replaceCRLF ps (fun c hc => hpat c (by simp [hc])) (c2 :: rest) hp.2

theorem containsStr_replaceCRLF (pat : Str) (hne : pat ≠ [])
    (hpat : ∀ c ∈ pat, c ≠ '\r' ∧ c ≠ '\n') :
    ∀ s, containsStr pat (replaceCRLF s) = true → containsStr pat s = true := by
  intro s
  induction s using replaceCRLF.induct with
  | case1 =>
      intro h
      rw [replaceCRLF] at h
      exact h
  | case2 c =>
      intro h
      rw [replaceCRLF] at h
      exact h
  | case3 c1 c2 rest h ih =>
      intro hc
      rw [replaceCRLF, if_pos h, containsStr_cons, Bool.or_eq_true] at hc
      rcases hc with hc | hc
      · exfalso
        cases pat with
        | nil => exact hne rfl
        | cons p ps =>
            simp only [hasPre, Bool.and_eq_true, beq_iff_eq] at hc
            exact (hpat p (by simp)).2 hc.1
      · exact containsStr_of_suffix _ _ _ (containsStr_of_suffix _ _ _ (ih hc))
  | case4 c1 c2 rest h ih =>
      intro hc
      rw [replaceCRLF, if_neg h, containsStr_cons, Bool.or_eq_true] at hc
      rcases hc with hc | hc
      · have : hasPre pat (c1 :: c2 :: rest) = true := by
          have := hasPre_replaceCRLF pat hpat (c1 :: c2 :: rest)
          rw [replaceCRLF, if_neg h] at this
          exact this hc
        exact containsStr_of_hasPre _ _ this
      · exact containsStr_of_suffix _ _ _ (ih hc)

theorem containsStr_stripNL (pat s : Str) (h : containsStr pat (stripNL s) = true) :
    containsStr pat s = true := by
  unfold stripNL at h
  split at h
  · rename_i hlast
    have hsne : s ≠ [] := by
      intro hnil
      rw [hnil] at hlast
      simp [List.getLast?] at hlast
    have := containsStr_append_right pat s.dropLast [s.getLast hsne] h
    rwa [List.dropLast_append_getLast hsne] at this
  · exact h

/-- Sentinel-absence survives stream normalization: the sentinel contains no
carriage return or newline, so CRLF-collapsing and trailing-newline stripping
cannot create an occurrence of it. -/
theorem containsStr_normalizeStream (s : Str) (h : containsStr sentinelChars s = false) :
    containsStr sentinelChars (normalizeStream s) = false := by
  rcases hc : containsStr sentinelChars (normalizeStream s) with _ | _
  · rfl
  · exfalso
    unfold normalizeStream at hc
    have h1 := containsStr_stripNL sentinelChars (replaceCRLF s) hc
    have h2 := containsStr_replaceCRLF sentinelChars sentinelChars_ne_nil (by decide) s h1
    rw [h] at h2
    exact Bool.false_ne_true h2

theorem stripNL_append_newline (u : Str) : stripNL (u ++ ['\n']) = u := by
  unfold stripNL
  rw [List.getLast?_concat, List.dropLast_concat]
  simp

theorem stripNL_of_no_newline (u : Str) (h : u.getLast? ≠ some '\n') : stripNL u = u := by
  unfold stripNL
  rw [if_neg h]

/-- Observable state of the wrapped shell subprocess.  `stdinLog` records every
byte written to its stdin and `termRequested` records a delivered termination
signal, so that "no I/O was performed" is provable as state equality.
`stdoutBuf`/`stderrBuf` are the `StreamReader` accumulation buffers the session
reads and clears. -/
structure ProcState where
  returncode : Option Int
  stdoutBuf : Str
  stderrBuf : Str
  stdinLog : Str
  termRequested : Bool
deriving DecidableEq

/-- The process as `start` spawns it: running, empty pipes. -/
def freshProc : ProcState :=
  { returncode := none, stdoutBuf := [], stderrBuf := [], stdinLog := [], termRequested := false }

/-- `_CommandSession`: started flag, timed-out flag, and the subprocess. -/
structure Session where
  started : Bool
  timedOut : Bool
  proc : ProcState
deriving DecidableEq

/-- `_CommandSession.__init__`: not started, not timed out; the `proc` field is
a placeholder until `start` spawns the subprocess (no operation reads it while
`started` is false). -/
def Session.new : Session := { started := false, timedOut := false, proc := freshProc }

/-- `_CommandSession.start`: no-op if already started, otherwise spawn the
shell subprocess with piped stdio and flip the started flag. -/
def Session.start (s : Session) : Session :=
  if s.started then s else { s with started := true, proc := freshProc }

/-- `Process.terminate()` on the Unix path: deliver the termination signal.
The exit itself is asynchronous, so `returncode` is unchanged here. -/
def terminate (p : ProcState) : ProcState := { p with termRequested := true }

/-- One `run` call's interaction with the subprocess: either the deadline
elapsed without the sentinel appearing in the stdout buffer, or the sentinel
was observed with `arrivedOut`/`arrivedErr` having been appended to the
stdout/stderr buffers since the call began. -/
inductive RunObs where
  | timeout
  | detect (arrivedOut arrivedErr : Str)
deriving DecidableEq

/-- The errors raised as `ToolError` (bash.py) plus the validation and bounds
errors raised in `ComputerTool.__call__`/`scale_coordinates` (computer.py).
Identified by raise site; the Python message strings are f-strings over the
same data. -/
inductive ToolErr where
  | notStarted
  | timedOut
  | noCommand
  | outOfBounds (x y : Int)
  | coordRequired
  | textNotAccepted
  | notListPair
  | notNonnegInts
  | textRequired
  | coordNotAccepted
  | notString
  | invalidAction
deriving DecidableEq

/-- `ToolResult` / `CLIResult`: output, error and system notice, each optional. -/
structure ToolResult where
  output : Option Str := none
  error : Option Str := none
  system : Option Str := none
deriving DecidableEq

/-- The line terminator `run` appends on the Unix path. -/
def lineEnding : Str := "\n".data

/-- `_CommandSession._sentinel_command` on the Unix path:
`echo`, space, quote, sentinel, quote. -/
def sentinelCommand : Str := "echo ".data ++ [Char.ofNat 39] ++ sentinelChars ++ [Char.ofNat 39]

/-- `_CommandSession.stop` (Unix path): error before `start`; no-op if the
process has already exited; otherwise signal termination. -/
def Session.stop (sess : Session) : Except ToolErr Session :=
  if sess.started = false then .error .notStarted
  else if sess.proc.returncode ≠ none then .ok sess
  else .ok { sess with proc := terminate sess.proc }

/-- `_CommandSession.run` (Unix path).  Checks started, then an exited
subprocess, then the poisoned timed-out flag; writes the command and the
sentinel echo to stdin; then either the timeout fires (poisoning the session)
or the sentinel is detected, the buffer is truncated at its first occurrence,
both streams are normalized, and the buffers are cleared. -/
def Session.run (sess : Session) (command : Str) (obs : RunObs) :
    Session × Except ToolErr ToolResult :=
  if sess.started = false then (sess, .error .notStarted)
  else
    match sess.proc.returncode with
    | some rc =>
        (sess, .ok { output := none,
                     error := some ("bash has exited with returncode ".data ++ (toString rc).data),
                     system := some ("tool must be restarted".data) })
    | none =>
        if sess.timedOut then (sess, .error .timedOut)
        else
          let fullCommand := command ++ lineEnding ++ sentinelCommand ++ lineEnding
          let proc1 := { sess.proc with stdinLog := sess.proc.stdinLog ++ fullCommand }
          match obs with
          | .timeout => ({ sess with proc := proc1, timedOut := true }, .error .timedOut)
          | .detect arrivedOut arrivedErr =>
              let obuf := sess.proc.stdoutBuf ++ arrivedOut
              let ebuf := sess.proc.stderrBuf ++ arrivedErr
              ({ sess with proc := { proc1 with stdoutBuf := [], stderrBuf := [] } },
               .ok { output := some (normalizeStream (truncAt sentinelChars obuf)),
                     error := some (normalizeStream ebuf),
                     system := none })

/-- `CommandTool`: the lifecycle manager owning at most one session. -/
structure CommandTool where
  session : Option Session
deriving DecidableEq

/-- `CommandTool.__init__`. -/
def CommandTool.new : CommandTool := { session := none }

/-- `CommandTool.__call__`: on restart, stop any existing session (propagating
its error, if any), then replace it with a fresh started one; otherwise lazily
create and start a session if none exists, run the command if one was given,
and fail with "no command provided" if not. -/
def CommandTool.call (t : CommandTool) (command : Option Str) (restart : Bool)
    (obs : RunObs) : CommandTool × Except ToolErr ToolResult :=
  if restart then
    match t.session with
    | some s =>
        match s.stop with
        | .error e => (t, .error e)
        | .ok _ =>
            ({ session := some Session.new.start },
             .ok { system := some ("tool has been restarted.".data) })
    | none =>
        ({ session := some Session.new.start },
         .ok { system := some ("tool has been restarted.".data) })
  else
    match t.session with
    | none =>
        match command with
        | some c =>
            let res := Session.new.start.run c obs
            ({ session := some res.1 }, res.2)
        | none => ({ session := some Session.new.start }, .error .noCommand)
    | some s =>
        match command with
        | some c =>
            let res := s.run c obs
            ({ session := some res.1 }, res.2)
        | none => (t, .error .noCommand)

/-- Unfolding of a successful `run` on a started, live, non-poisoned session:
the command and sentinel echo are written to stdin, the stdout buffer is
truncated at the sentinel, both streams are normalized, the buffers cleared. -/
theorem run_detect_eq (sess : Session) (c aOut aErr : Str)
    (hstart : sess.started = true) (hlive : sess.proc.returncode = none)
    (hto : sess.timedOut = false) :
    sess.run c (.detect aOut aErr)
      = ({ sess with proc :=
             { sess.proc with
               stdinLog := sess.proc.stdinLog ++ (c ++ lineEnding ++ sentinelCommand ++ lineEnding),
               stdoutBuf := [], stderrBuf := [] } },
         .ok { output := some (normalizeStream (truncAt sentinelChars (sess.proc.stdoutBuf ++ aOut))),
               error := some (normalizeStream (sess.proc.stderrBuf ++ aErr)),
               system := none }) := by
  simp [Session.run, hstart, hlive, hto]

/-- Unfolding of a timed-out `run` on a started, live, non-poisoned session:
the command was written, the timed-out flag is set, the call fails. -/
theorem run_timeout_eq (sess : Session) (c : Str)
    (hstart : sess.started = true) (hlive : sess.proc.returncode = none)
    (hto : sess.timedOut = false) :
    sess.run c .timeout
      = ({ sess with
           timedOut := true,
           proc := { sess.proc with
             stdinLog := sess.proc.stdinLog ++ (c ++ lineEnding ++ sentinelCommand ++ lineEnding) } },
         .error .timedOut) := by
  simp [Session.run, hstart, hlive, hto]

/-- Claim C1: on a started, non-timed-out session with a live process and a
clean stdout buffer, running a command whose stdout `S` does not contain the
sentinel yields exactly `S`, newline-normalized with one trailing newline
stripped: the buffer `S ++ sentinel ++ leakage` is truncated at the sentinel's
first occurrence before normalization, and the returned output contains no
occurrence of the sentinel token. -/
theorem run_returns_clean_stdout (sess : Session) (c S z aErr : Str)
    (hstart : sess.started = true) (hlive : sess.proc.returncode = none)
    (hto : sess.timedOut = false) (hbuf : sess.proc.stdoutBuf = [])
    (hS : containsStr sentinelChars S = false) :
    (sess.run c (.detect (S ++ (sentinelChars ++ z)) aErr)).2
      = .ok { output := some (normalizeStream S),
              error := some (normalizeStream (sess.proc.stderrBuf ++ aErr)),
              system := none }
    ∧ containsStr sentinelChars (normalizeStream S) = false := by
  refine ⟨?_, containsStr_normalizeStream S hS⟩
  rw [run_detect_eq sess c _ aErr hstart hlive hto, hbuf, List.nil_append,
    truncAt_sentinel_append S hS z]

/-- Witness for C1: `echo hello` on a fresh started session returns `hello`. -/
theorem run_returns_clean_stdout_witness :
    (Session.new.start.run ("echo hello".data)
        (.detect ("hello\n".data ++ (sentinelChars ++ "\n".data)) [])).2
      = .ok { output := some (normalizeStream ("hello\n".data)),
              error := some (normalizeStream (Session.new.start.proc.stderrBuf ++ [])),
              system := none }
    ∧ containsStr sentinelChars (normalizeStream ("hello\n".data)) = false :=
  run_returns_clean_stdout Session.new.start ("echo hello".data) ("hello\n".data)
    ("\n".data) [] (by decide) (by decide) (by decide) (by decide) (by decide)

/-- Claim C2: a `run` that times out poisons the session — the timed-out flag
is set, the call fails — and every subsequent `run` on that session fails
immediately with the timeout error and leaves the session (stdin log, buffers,
everything) untouched. -/
theorem timeout_poisons_session (sess : Session) (c : Str)
    (hstart : sess.started = true) (hlive : sess.proc.returncode = none)
    (hto : sess.timedOut = false) :
    (sess.run c .timeout).2 = .error .timedOut
    ∧ (sess.run c .timeout).1.timedOut = true
    ∧ ∀ c2 obs2, ((sess.run c .timeout).1).run c2 obs2
        = ((sess.run c .timeout).1, .error .timedOut) := by
  rw [run_timeout_eq sess c hstart hlive hto]
  refine ⟨rfl, rfl, ?_⟩
  intro c2 obs2
  simp [Session.run, hstart, hlive]

/-- Witness for C2 at a fresh started session, with a concrete follow-up
call. -/
theorem timeout_poisons_session_witness :
    (Session.new.start.run ("sleep 999".data) .timeout).2 = .error .timedOut
    ∧ (Session.new.start.run ("sleep 999".data) .timeout).1.timedOut = true
    ∧ ((Session.new.start.run ("sleep 999".data) .timeout).1).run ("echo again".data) .timeout
        = ((Session.new.start.run ("sleep 999".data) .timeout).1, .error .timedOut) :=
  have h := timeout_poisons_session Session.new.start ("sleep 999".data)
    (by decide) (by decide) (by decide)
  ⟨h.1, h.2.1, h.2.2 ("echo again".data) .timeout⟩

/-- Claim C3: `run` on a started session whose subprocess has already exited
returns (does not raise) a result carrying the "tool must be restarted" system
notice and a non-null error describing the shell's exit, and performs no I/O:
the session, including the stdin log and both buffers, is returned unchanged. -/
theorem run_after_exit_returns (sess : Session) (c : Str) (obs : RunObs) (rc : Int)
    (hstart : sess.started = true) (hrc : sess.proc.returncode = some rc) :
    sess.run c obs
      = (sess, .ok { output := none,
                     error := some ("bash has exited with returncode ".data ++ (toString rc).data),
                     system := some ("tool must be restarted".data) }) := by
  simp [Session.run, hstart, hrc]

/-- Witness for C3 at a session whose shell exited with returncode 2. -/
theorem run_after_exit_returns_witness :
    Session.run
        { started := true, timedOut := false,
          proc := { returncode := some 2, stdoutBuf := [], stderrBuf := [],
                    stdinLog := [], termRequested := false } }
        ("echo hi".data) .timeout
      = ({ started := true, timedOut := false,
           proc := { returncode := some 2, stdoutBuf := [], stderrBuf := [],
                     stdinLog := [], termRequested := false } },
         .ok { output := none,
               error := some ("bash has exited with returncode ".data ++ (toString (2 : Int)).data),
               system := some ("tool must be restarted".data) }) :=
  run_after_exit_returns _ ("echo hi".data) .timeout 2 (by decide) (by decide)

/-- Claim C5: every successful `run` hands back both streams with CRLF
collapsed to LF and exactly one trailing newline stripped if present; a second
trailing newline is kept. -/
theorem run_normalizes_streams (sess : Session) (c aOut aErr : Str)
    (hstart : sess.started = true) (hlive : sess.proc.returncode = none)
    (hto : sess.timedOut = false) :
    (sess.run c (.detect aOut aErr)).2
      = .ok { output := some (stripNL (replaceCRLF
                 (truncAt sentinelChars (sess.proc.stdoutBuf ++ aOut)))),
              error := some (stripNL (replaceCRLF (sess.proc.stderrBuf ++ aErr))),
              system := none }
    ∧ (∀ u : Str, stripNL (u ++ ['\n']) = u)
    ∧ (∀ u : Str, u.getLast? ≠ some '\n' → stripNL u = u)
    ∧ (∀ u : Str, stripNL (u ++ ['\n', '\n']) = u ++ ['\n']) := by
  refine ⟨?_, stripNL_append_newline, stripNL_of_no_newline, ?_⟩
  · rw [run_detect_eq sess c aOut aErr hstart hlive hto]
    rfl
  · intro u
    have h : u ++ ['\n', '\n'] = (u ++ ['\n']) ++ ['\n'] := by simp
    rw [h, stripNL_append_newline]

/-- Witness for C5 at a fresh started session, with the stripping facts
instantiated at a concrete stream. -/
theorem run_normalizes_streams_witness :
    (Session.new.start.run ("echo hi".data)
        (.detect ("hi\r\n".data ++ sentinelChars) ("warn\n\n".data))).2
      = .ok { output := some (stripNL (replaceCRLF
                 (truncAt sentinelChars (Session.new.start.proc.stdoutBuf ++ ("hi\r\n".data ++ sentinelChars))))),
              error := some (stripNL (replaceCRLF (Session.new.start.proc.stderrBuf ++ "warn\n\n".data))),
              system := none }
    ∧ stripNL ("hi".data ++ ['\n']) = "hi".data
    ∧ stripNL ("hi".data) = "hi".data
    ∧ stripNL ("hi".data ++ ['\n', '\n']) = "hi".data ++ ['\n'] :=
  have h := run_normalizes_streams Session.new.start ("echo hi".data)
    ("hi\r\n".data ++ sentinelChars) ("warn\n\n".data) (by decide) (by decide) (by decide)
  ⟨h.1, h.2.1 ("hi".data), h.2.2.1 ("hi".data) (by decide), h.2.2.2 ("hi".data)⟩

/-- Claim C6: on a started session, `stop` succeeds (is not an error) and a
second `stop` is a state-level no-op: composing `stop` after `stop` equals a
single `stop`, including when the first `stop`'s termination signal was
delivered but the exit has not yet been observed. -/
theorem stop_stop_noop (sess : Session) (hstart : sess.started = true) :
    Except.bind sess.stop Session.stop = sess.stop ∧ sess.stop.isOk = true := by
  by_cases hrc : sess.proc.returncode = none
  · have h1 : sess.stop = .ok { sess with proc := terminate sess.proc } := by
      simp [Session.stop, hstart, hrc]
    rw [h1]
    refine ⟨?_, rfl⟩
    show Session.stop { sess with proc := terminate sess.proc } = _
    simp [Session.stop, hstart, terminate, hrc]
  · obtain ⟨rc, hrc'⟩ := Option.ne_none_iff_exists'.1 hrc
    have h1 : sess.stop = .ok sess := by simp [Session.stop, hstart, hrc']
    rw [h1]
    refine ⟨?_, rfl⟩
    show Session.stop sess = _
    simp [Session.stop, hstart, hrc']

/-- Witness for C6 at a fresh started session. -/
theorem stop_stop_noop_witness :
    Except.bind Session.new.start.stop Session.stop = Session.new.start.stop
    ∧ Session.new.start.stop.isOk = true :=
  stop_stop_noop Session.new.start (by decide)

theorem stop_ok (sess : Session) (hstart : sess.started = true) :
    ∃ s', sess.stop = .ok s' := by
  by_cases hrc : sess.proc.returncode = none
  · exact ⟨{ sess with proc := terminate sess.proc }, by simp [Session.stop, hstart, hrc]⟩
  · exact ⟨sess, by simp [Session.stop, hstart, hrc]⟩

/-- A command run against a freshly created and started session, whose stdout
`S` is sentinel-free, returns exactly the normalized `S`. -/
theorem fresh_run_clean (c S z aErr : Str) (hS : containsStr sentinelChars S = false) :
    (Session.new.start.run c (.detect (S ++ (sentinelChars ++ z)) aErr)).2
      = .ok { output := some (normalizeStream S),
              error := some (normalizeStream aErr),
              system := none } := by
  rw [run_detect_eq Session.new.start c _ aErr (by decide) (by decide) (by decide)]
  have hout : Session.new.start.proc.stdoutBuf = [] := by decide
  have herr : Session.new.start.proc.stderrBuf = [] := by decide
  rw [hout, herr, List.nil_append, List.nil_append, truncAt_sentinel_append S hS z]

/-- Claim C4: a restart request stops the existing session if one exists,
replaces it with a fresh started session, reports success, and a subsequent
command runs cleanly against the new session. -/
theorem restart_replaces_session (t : CommandTool) (obs : RunObs)
    (h : ∀ s, t.session = some s → s.started = true) :
    (t.call none true obs).2
      = .ok { output := none, error := none, system := some ("tool has been restarted.".data) }
    ∧ (t.call none true obs).1.session = some Session.new.start
    ∧ Session.new.start.started = true
    ∧ Session.new.start.timedOut = false
    ∧ Session.new.start.proc.returncode = none
    ∧ ∀ c S z aErr, containsStr sentinelChars S = false →
        ((t.call none true obs).1.call (some c) false (.detect (S ++ (sentinelChars ++ z)) aErr)).2
          = .ok { output := some (normalizeStream S),
                  error := some (normalizeStream aErr),
                  system := none } := by
  have hcall : t.call none true obs
      = ({ session := some Session.new.start },
         .ok { output := none, error := none, system := some ("tool has been restarted.".data) }) := by
    rcases ht : t.session with _ | s
    · simp [CommandTool.call, ht]
    · obtain ⟨s', hs'⟩ := stop_ok s (h s ht)
      simp [CommandTool.call, ht, hs']
  rw [hcall]
  refine ⟨rfl, rfl, by decide, by decide, by decide, ?_⟩
  intro c S z aErr hS
  have hrun := fresh_run_clean c S z aErr hS
  simp only [CommandTool.call, if_neg (Bool.false_ne_true)]
  simpa using hrun

/-- Witness for C4: restart on a fresh tool, then `echo world` returns
`world`. -/
theorem restart_replaces_session_witness :
    (CommandTool.new.call none true .timeout).2
      = .ok { output := none, error := none, system := some ("tool has been restarted.".data) }
    ∧ ((CommandTool.new.call none true .timeout).1.call (some ("echo world".data)) false
         (.detect ("world\n".data ++ (sentinelChars ++ [])) [])).2
        = .ok { output := some (normalizeStream ("world\n".data)),
                error := some (normalizeStream []),
                system := none } :=
  have h := restart_replaces_session CommandTool.new .timeout (fun s hs => nomatch hs)
  ⟨h.1, h.2.2.2.2.2 ("echo world".data) ("world\n".data) [] [] (by decide)⟩

/-- Claim C8: calling the lifecycle manager with no command and restart false
fails with the "no command provided" error, but only after creating and
starting a fresh session when none existed — the failing call changes the
manager's state. -/
theorem no_command_still_starts_session (t : CommandTool) (obs : RunObs)
    (h : t.session = none) :
    t.call none false obs = ({ session := some Session.new.start }, .error .noCommand)
    ∧ (t.call none false obs).1 ≠ t
    ∧ ((t.call none false obs).1.session.map Session.started) = some true := by
  have h1 : t.call none false obs
      = ({ session := some Session.new.start }, .error .noCommand) := by
    simp [CommandTool.call, h]
  refine ⟨h1, ?_, ?_⟩
  · rw [h1]
    intro he
    rw [← he] at h
    simp at h
  · rw [h1]
    decide

/-- Witness for C8 at a fresh tool. -/
theorem no_command_still_starts_session_witness :
    CommandTool.new.call none false .timeout
        = ({ session := some Session.new.start }, .error .noCommand)
    ∧ (CommandTool.new.call none false .timeout).1 ≠ CommandTool.new
    ∧ ((CommandTool.new.call none false .timeout).1.session.map Session.started) = some true :=
  no_command_still_starts_session CommandTool.new .timeout rfl

/-- The `Action` literal of computer.py (`typeText` models the literal
`"type"`, a reserved word here). -/
inductive Action where
  | key | typeText | mouseMove | leftClick | leftClickDrag | rightClick
  | middleClick | doubleClick | screenshot | cursorPosition
deriving DecidableEq

/-- A Python value appearing as a coordinate element: an int, or anything
else (the `isinstance(i, int)` check distinguishes only these). -/
inductive PyVal where
  | intVal (n : Int)
  | nonInt
deriving DecidableEq

/-- The runtime value bound to `coordinate`: the interface annotates it as a
tuple, the validation tests `isinstance(coordinate, list)`, so both shapes
must be representable. -/
inductive PyCoord where
  | tup (xs : List PyVal)
  | lst (xs : List PyVal)
deriving DecidableEq

/-- `isinstance(coordinate, list)`. -/
def PyCoord.isList : PyCoord → Bool
  | .lst _ => true
  | .tup _ => false

/-- The elements of the tuple or list (for `len` and iteration). -/
def PyCoord.elems : PyCoord → List PyVal
  | .lst xs => xs
  | .tup xs => xs

/-- `isinstance(i, int) and i >= 0`. -/
def PyVal.isNonnegInt : PyVal → Bool
  | .intVal n => decide (0 ≤ n)
  | .nonInt => false

/-- The integer content of an element (only read after validation). -/
def PyVal.toInt : PyVal → Int
  | .intVal n => n
  | .nonInt => 0

/-- `coordinate[0]`. -/
def PyCoord.fst (c : PyCoord) : Int := (c.elems.getD 0 PyVal.nonInt).toInt

/-- `coordinate[1]`. -/
def PyCoord.snd (c : PyCoord) : Int := (c.elems.getD 1 PyVal.nonInt).toInt

/-- A `Resolution` entry of MAX_SCALING_TARGETS. -/
structure Resolution where
  width : Int
  height : Int
deriving DecidableEq

def XGA : Resolution := { width := 1024, height := 768 }

def WXGA : Resolution := { width := 1280, height := 800 }

def FWXGA : Resolution := { width := 1366, height := 768 }

/-- MAX_SCALING_TARGETS in dict insertion order. -/
def maxScalingTargets : List Resolution := [XGA, WXGA, FWXGA]

/-- `ScalingSource`. -/
inductive ScalingSource where
  | computer
  | api
deriving DecidableEq

/-- The tool's screen configuration (`self.width`, `self.height`,
`self._scaling_enabled`). -/
structure ComputerCfg where
  width : Int
  height : Int
  scalingEnabled : Bool
deriving DecidableEq

/-- The configuration with the WIDTH/HEIGHT environment defaults. -/
def defaultCfg : ComputerCfg := { width := 1920, height := 1080, scalingEnabled := true }

/-- Python's `round`: nearest integer, ties to even.  The float arithmetic of
`scale_coordinates` is modelled by exact rationals. -/
def pyRound (q : ℚ) : Int :=
  if q - (Int.floor q : ℚ) < 1/2 then Int.floor q
  else if (1 : ℚ)/2 < q - (Int.floor q : ℚ) then Int.floor q + 1
  else if Int.floor q % 2 = 0 then Int.floor q else Int.floor q + 1

/-- The `for dimension in MAX_SCALING_TARGETS.values()` loop with its `break`:
the first ratio-matching entry decides the outcome — it becomes the target
only if strictly narrower than the screen — and the loop stops there. -/
def findTarget (ratio : ℚ) (w : Int) : List Resolution → Option Resolution
  | [] => none
  | d :: rest =>
      if |(d.width : ℚ) / (d.height : ℚ) - ratio| < 1/50 then
        (if d.width < w then some d else none)
      else findTarget ratio w rest

/-- `ComputerTool.scale_coordinates`. -/
def ComputerCfg.scaleCoordinates (cfg : ComputerCfg) (source : ScalingSource)
    (x y : Int) : Except ToolErr (Int × Int) :=
  if cfg.scalingEnabled = false then .ok (x, y)
  else
    match findTarget ((cfg.width : ℚ) / (cfg.height : ℚ)) cfg.width maxScalingTargets with
    | none => .ok (x, y)
    | some d =>
        let xf : ℚ := (d.width : ℚ) / (cfg.width : ℚ)
        let yf : ℚ := (d.height : ℚ) / (cfg.height : ℚ)
        match source with
        | .api =>
            if x > cfg.width ∨ y > cfg.height then .error (.outOfBounds x y)
            else .ok (pyRound ((x : ℚ) / xf), pyRound ((y : ℚ) / yf))
        | .computer => .ok (pyRound ((x : ℚ) * xf), pyRound ((y : ℚ) * yf))

/-- The GUI side effect a validated call performs; the effects themselves
(pyautogui, screenshot capture) are external collaborators. -/
inductive CallPlan where
  | moveTo (x y : Int)
  | dragTo (x y : Int)
  | pressKeys (t : Str)
  | typeWrite (t : Str)
  | clickLeft | clickRight | clickMiddle | clickDouble
  | takeScreenshot
  | reportCursor (x y : Int)
deriving DecidableEq

/-- `ComputerTool.__call__`: the three action groups with their argument
validation, in source order, ending in the invalid-action raise.  `cursor` is
the external `pyautogui.position()` answer; the unreachable
`isinstance(text, str)` check is vacuous here because `text` is typed. -/
def computerCall (cfg : ComputerCfg) (action : Action) (text : Option Str)
    (coordinate : Option PyCoord) (cursor : Int × Int) : Except ToolErr CallPlan :=
  if action = .mouseMove ∨ action = .leftClickDrag then
    match coordinate with
    | none => .error .coordRequired
    | some c =>
        if text ≠ none then .error .textNotAccepted
        else if c.isList = false ∨ c.elems.length ≠ 2 then .error .notListPair
        else if c.elems.all PyVal.isNonnegInt = false then .error .notNonnegInts
        else
          match cfg.scaleCoordinates .api c.fst c.snd with
          | .error e => .error e
          | .ok (x, y) =>
              if action = .mouseMove then .ok (.moveTo x y) else .ok (.dragTo x y)
  else if action = .key ∨ action = .typeText then
    match text with
    | none => .error .textRequired
    | some t =>
        if coordinate ≠ none then .error .coordNotAccepted
        else if action = .key then .ok (.pressKeys t)
        else .ok (.typeWrite t)
  else if action = .leftClick ∨ action = .rightClick ∨ action = .doubleClick
      ∨ action = .middleClick ∨ action = .screenshot ∨ action = .cursorPosition then
    if text ≠ none then .error .textNotAccepted
    else if coordinate ≠ none then .error .coordNotAccepted
    else
      match action with
      | .screenshot => .ok .takeScreenshot
      | .cursorPosition =>
          match cfg.scaleCoordinates .computer cursor.1 cursor.2 with
          | .error e => .error e
          | .ok (x, y) => .ok (.reportCursor x y)
      | .leftClick => .ok .clickLeft
      | .rightClick => .ok .clickRight
      | .middleClick => .ok .clickMiddle
      | _ => .ok .clickDouble
  else .error .invalidAction

/-- Claim C7: for `mouse_move` and `left_click_drag`, a call omitting the
coordinate, or supplying a text argument, is rejected with the corresponding
usage error before any coordinate scaling or GUI action. -/
theorem move_drag_arg_validation (cfg : ComputerCfg) (a : Action)
    (h : a = .mouseMove ∨ a = .leftClickDrag) :
    (∀ text cursor, computerCall cfg a text none cursor = .error .coordRequired)
    ∧ (∀ t c cursor, computerCall cfg a (some t) (some c) cursor = .error .textNotAccepted) := by
  rcases h with h | h <;> subst h <;>
    exact ⟨fun text cursor => by simp [computerCall],
           fun t c cursor => by simp [computerCall]⟩

/-- Witness for C7 at concrete calls. -/
theorem move_drag_arg_validation_witness :
    computerCall defaultCfg .mouseMove none none (0, 0) = .error .coordRequired
    ∧ computerCall defaultCfg .leftClickDrag (some ("a".data))
        (some (.lst [.intVal 1, .intVal 2])) (0, 0) = .error .textNotAccepted :=
  ⟨(move_drag_arg_validation defaultCfg .mouseMove (Or.inl rfl)).1 none (0, 0),
   (move_drag_arg_validation defaultCfg .leftClickDrag (Or.inr rfl)).2
     ("a".data) (.lst [.intVal 1, .intVal 2]) (0, 0)⟩

/-- Claim C9: for `mouse_move` and `left_click_drag`, a coordinate supplied as
an actual tuple — the declared interface type — is always rejected, because
the validation accepts only list values: with no text argument the rejection
is the "must be a tuple of length 2" usage error, and with any arguments the
call fails before reaching any GUI action. -/
theorem tuple_coordinate_always_rejected (cfg : ComputerCfg) (a : Action)
    (xs : List PyVal) (cursor : Int × Int)
    (h : a = .mouseMove ∨ a = .leftClickDrag) :
    computerCall cfg a none (some (.tup xs)) cursor = .error .notListPair
    ∧ ∀ text, (computerCall cfg a text (some (.tup xs)) cursor).isOk = false := by
  rcases h with h | h <;> subst h <;>
    refine ⟨by simp [computerCall, PyCoord.isList], fun text => ?_⟩ <;>
    · cases text with
      | none => simp [computerCall, PyCoord.isList, Except.isOk, Except.toBool]
      | some t => simp [computerCall, Except.isOk, Except.toBool]

/-- Witness for C9: a genuine well-formed 2-tuple of non-negative ints is
rejected, with or without a text argument. -/
theorem tuple_coordinate_always_rejected_witness :
    computerCall defaultCfg .mouseMove none (some (.tup [.intVal 10, .intVal 20])) (0, 0)
        = .error .notListPair
    ∧ (computerCall defaultCfg .mouseMove (some ("a".data))
        (some (.tup [.intVal 10, .intVal 20])) (0, 0)).isOk = false :=
  have h := tuple_coordinate_always_rejected defaultCfg .mouseMove
    [.intVal 10, .intVal 20] (0, 0) (Or.inl rfl)
  ⟨h.1, h.2 (some ("a".data))⟩

/-- At the 1920x1080 default resolution the loop selects FWXGA: the first two
targets miss the 16:9 ratio, the third matches it and is narrower than the
screen. -/
theorem findTarget_default :
    findTarget ((defaultCfg.width : ℚ) / (defaultCfg.height : ℚ)) defaultCfg.width
        maxScalingTargets = some FWXGA := by
  norm_num [findTarget, maxScalingTargets, XGA, WXGA, FWXGA, defaultCfg, abs_lt]

theorem pyRound_ge (q : ℚ) : q - 1/2 ≤ (pyRound q : ℚ) := by
  have hf := Int.floor_le q
  have hc := Int.lt_floor_add_one q
  unfold pyRound
  split
  · rename_i h
    linarith
  · split
    · push_cast
      linarith
    · split
      · rename_i h1 h2 _
        linarith
      · push_cast
        linarith

/-- Claim C10: with scaling enabled and a matching target selected, the API
branch of `scale_coordinates` raises the out-of-bounds error exactly when `x`
exceeds the physical screen width or `y` exceeds the physical screen height —
not the scaled target dimensions — so an API coordinate beyond the target
resolution but within the physical one is accepted and scaled up. -/
theorem api_bounds_use_physical_resolution (cfg : ComputerCfg) (d : Resolution)
    (x y : Int)
    (hen : cfg.scalingEnabled = true)
    (hfind : findTarget ((cfg.width : ℚ) / (cfg.height : ℚ)) cfg.width
        maxScalingTargets = some d) :
    ((cfg.scaleCoordinates .api x y = .error (.outOfBounds x y))
        ↔ (x > cfg.width ∨ y > cfg.height))
    ∧ (x ≤ cfg.width → y ≤ cfg.height →
        cfg.scaleCoordinates .api x y
          = .ok (pyRound ((x : ℚ) * cfg.width / d.width),
                 pyRound ((y : ℚ) * cfg.height / d.height)))
    ∧ (0 < d.width → d.width < cfg.width → d.width < x → x ≤ cfg.width →
        x < pyRound ((x : ℚ) * cfg.width / d.width)) := by
  have hmain : cfg.scaleCoordinates .api x y
      = if x > cfg.width ∨ y > cfg.height then .error (.outOfBounds x y)
        else .ok (pyRound ((x : ℚ) * cfg.width / d.width),
                  pyRound ((y : ℚ) * cfg.height / d.height)) := by
    simp only [ComputerCfg.scaleCoordinates, hen, hfind]
    rw [div_div_eq_mul_div, div_div_eq_mul_div]
    simp
  have hup : 0 < d.width → d.width < cfg.width → d.width < x → x ≤ cfg.width →
      x < pyRound ((x : ℚ) * cfg.width / d.width) := by
    intro hdw hdcw hdx hx
    have hxpos : (0 : Int) < x := by omega
    have hint : (x + 1) * d.width ≤ x * cfg.width := by
      have h1 : x * (d.width + 1) ≤ x * cfg.width :=
        mul_le_mul_of_nonneg_left (by omega) (by omega)
      nlinarith
    have hq : (x : ℚ) + 1 ≤ (x : ℚ) * cfg.width / d.width := by
      rw [le_div_iff₀ (show (0 : ℚ) < (d.width : ℚ) by exact_mod_cast hdw)]
      exact_mod_cast hint
    have hple := pyRound_ge ((x : ℚ) * cfg.width / d.width)
    have hlt : (x : ℚ) < (pyRound ((x : ℚ) * cfg.width / d.width) : ℚ) := by linarith
    exact_mod_cast hlt
  by_cases hb : x > cfg.width ∨ y > cfg.height
  · rw [hmain, if_pos hb]
    refine ⟨⟨fun _ => hb, fun _ => rfl⟩, ?_, hup⟩
    intro hx hy
    exact absurd hb (by omega)
  · rw [hmain, if_neg hb]
    exact ⟨⟨fun he => absurd he (by simp), fun hc => absurd hc hb⟩, fun _ _ => rfl, hup⟩

/-- Witness for C10 at the 1920x1080 default: the target is FWXGA (1366x768);
the coordinate (1500, 800) is beyond the target resolution but within the
physical one, so it is accepted and scaled up. -/
theorem api_bounds_use_physical_resolution_witness :
    ((defaultCfg.scaleCoordinates .api 1500 800 = .error (.outOfBounds 1500 800))
        ↔ ((1500 : Int) > defaultCfg.width ∨ (800 : Int) > defaultCfg.height))
    ∧ defaultCfg.scaleCoordinates .api 1500 800
        = .ok (pyRound ((1500 : ℚ) * defaultCfg.width / FWXGA.width),
               pyRound ((800 : ℚ) * defaultCfg.height / FWXGA.height))
    ∧ (1500 : Int) < pyRound ((1500 : ℚ) * defaultCfg.width / FWXGA.width) :=
  have h := api_bounds_use_physical_resolution defaultCfg FWXGA 1500 800
    (by decide) findTarget_default
  ⟨h.1, h.2.1 (by decide) (by decide),
   h.2.2 (by decide) (by decide) (by decide) (by decide)⟩

end ComputerUseTools
